import Mathlib

/-!
Shallow embedding of the arche chess engine (crate `basic_engine` plus the
UCI shell) and verification of its design-document claims.

Modelling conventions:
* `u64` bitboards are `Nat`; the source's `!x` complement is `U64MASK ^^^ x`,
  `set_bit`/`clear_bit`/`is_bit_set` are literal translations.
* `u32` material counters are `Nat` with wrapping add/sub modulo `2 ^ 32`
  (release-mode Rust semantics).
* `u8` square arithmetic that the source performs with possible wrap is
  modelled modulo 256 (`u8_sub`, `u8_add`).
* Rust panics (`unwrap`, `expect`, out-of-bounds indexing, `unreachable!`)
  are modelled by `Option`: `none` is a panic or an `Err`.
* The process-wide Zobrist table (`zorbrist.rs`) is a table of pseudo-random
  numbers produced by a seeded RNG; its concrete values are opaque, so the
  table is a parameter `Zorbrist` of every function that reads it.  Theorems
  quantify over the table; concrete witnesses use a fixed test table.
* The magic-bitboard lookup (`magic.rs`) is a perfect hash whose table
  entries are produced by `gen_straight_moves` / `gen_diagonal_moves`; the
  lookup therefore equals those generators applied to the blocker subset of
  the occupancy, and is embedded as that composition.
-/

namespace Arche

/-! ## Bit sets (`bitboard.rs`) -/

def U64MASK : Nat := 2 ^ 64 - 1

/-- `BitBoard::set_bit` for `u64`: `self | (1 << index)`. -/
def set_bit (b : Nat) (i : Nat) : Nat := b ||| (1 <<< i)

/-- `BitBoard::clear_bit` for `u64`: `self & !(1 << index)`. -/
def clear_bit (b : Nat) (i : Nat) : Nat := b &&& (U64MASK ^^^ (1 <<< i))

/-- `BitBoard::is_bit_set` for `u64`: `(self & (1 << index)) > 0`. -/
def is_bit_set (b : Nat) (i : Nat) : Bool := b &&& (1 <<< i) != 0

/-- `BitBoard::get_set_bits`: the indices of the set bits in ascending order
(the source pops `trailing_zeros` repeatedly, which enumerates the set bits
of a `u64` in ascending order below 64). -/
def get_set_bits (b : Nat) : List Nat :=
  (List.range 64).filter (fun i => is_bit_set b i)

/-- Popcount of a `u64` (`count_ones`), via the set-bit list. -/
def pop_count (b : Nat) : Nat := (get_set_bits b).length

/-! ## Pieces, colours, files, coordinates (`misc.rs`) -/

inductive Color where
  | Black
  | White
deriving DecidableEq, Repr

/-- `impl Not for Color`. -/
def Color.not : Color → Color
  | .White => .Black
  | .Black => .White

inductive Piece where
  | Pawn
  | Knight
  | Bishop
  | Rook
  | Queen
  | King
deriving DecidableEq, Repr, Fintype

/-- `Piece::material_value`. -/
def Piece.material_value : Piece → Nat
  | .Pawn => 100
  | .Knight => 310
  | .Bishop => 320
  | .Rook => 500
  | .Queen => 900
  | .King => 10000

inductive PromotePiece where
  | Knight
  | Bishop
  | Rook
  | Queen
deriving DecidableEq, Repr

/-- `From<&PromotePiece> for Piece`. -/
def PromotePiece.toPiece : PromotePiece → Piece
  | .Knight => .Knight
  | .Bishop => .Bishop
  | .Rook => .Rook
  | .Queen => .Queen

/-- `PromotePiece::VARIANTS`. -/
def PromotePiece.VARIANTS : List PromotePiece :=
  [.Knight, .Bishop, .Rook, .Queen]

/-- `File::add`: files are their `u8` discriminants 0..7 and addition wraps
modulo 8 (`File::VARIANTS[(self as usize + value) % 8]`). -/
def file_add (f : Nat) (v : Nat) : Nat := (f + v) % 8

/-- `misc::coordinate_to_index`. -/
def coordinate_to_index (rank : Nat) (file : Nat) : Nat := (rank - 1) * 8 + file

structure Coordinate where
  rank : Nat
  file : Nat
deriving DecidableEq, Repr

/-- `Coordinate::as_index`. -/
def Coordinate.as_index (c : Coordinate) : Nat := coordinate_to_index c.rank c.file

/-- `Coordinate::from_index` (via `index_to_coordinate`). -/
def Coordinate.from_index (i : Nat) : Coordinate := ⟨i / 8 + 1, i % 8⟩

/-- `File::try_from(char)`, as the discriminant. -/
def file_from_char (c : Char) : Option Nat :=
  match c with
  | 'A' | 'a' => some 0
  | 'B' | 'b' => some 1
  | 'C' | 'c' => some 2
  | 'D' | 'd' => some 3
  | 'E' | 'e' => some 4
  | 'F' | 'f' => some 5
  | 'G' | 'g' => some 6
  | 'H' | 'h' => some 7
  | _ => none

/-- `char::to_digit(10)`. -/
def char_digit (c : Char) : Option Nat :=
  if c.isDigit then some (c.toNat - 48) else none

/-- `Coordinate::from_string`; the source `unwrap`s a non-digit rank, which is
a panic, merged into `none` here.  Fields are passed as character lists. -/
def coordinate_from_string (s : List Char) : Option (Option Coordinate) :=
  if s = ['-'] then some none
  else match s with
    | [cf, cr] =>
      match file_from_char cf, char_digit cr with
      | some f, some r => some (some ⟨r, f⟩)
      | _, _ => none
    | _ => none

/-- `Color::from_char`. -/
def color_from_char (c : Char) : Option Color :=
  match c with
  | 'b' | 'B' => some .Black
  | 'w' | 'W' => some .White
  | _ => none

structure CastlePermissions where
  black_king_side : Bool
  black_queen_side : Bool
  white_king_side : Bool
  white_queen_side : Bool
deriving DecidableEq, Repr

/-- `CastlePermissions::from_fen`, over the field's characters. -/
def castle_from_fen (s : List Char) : Option CastlePermissions :=
  let base : CastlePermissions := ⟨false, false, false, false⟩
  if s = ['-'] then some base
  else s.foldl (fun acc c =>
    match acc with
    | none => none
    | some perms =>
      match c with
      | 'k' => some { perms with black_king_side := true }
      | 'q' => some { perms with black_queen_side := true }
      | 'K' => some { perms with white_king_side := true }
      | 'Q' => some { perms with white_queen_side := true }
      | _ => none) (some base)

/-- `str::parse::<usize>` restricted to the plain-digit case (the source never
feeds a leading `+`). -/
def parse_usize (s : List Char) : Option Nat :=
  if s ≠ [] ∧ s.all Char.isDigit then
    some (s.foldl (fun acc c => acc * 10 + (c.toNat - 48)) 0)
  else none

/-- `str::split(' ')`: split a character list at every single space
(consecutive spaces yield empty pieces, exactly as in Rust). -/
def split_spaces : List Char → List (List Char)
  | [] => [[]]
  | c :: rest =>
    let r := split_spaces rest
    if c = ' ' then [] :: r
    else
      match r with
      | [] => [[c]]
      | h :: t => (c :: h) :: t

/-! ## Wrapping machine arithmetic -/

/-- Wrapping `u32` addition (release mode). -/
def wadd32 (a : Nat) (b : Nat) : Nat := (a + b) % 2 ^ 32

/-- Wrapping `u32` subtraction (release mode). -/
def wsub32 (a : Nat) (b : Nat) : Nat := (a + 2 ^ 32 - b % 2 ^ 32) % 2 ^ 32

/-- Wrapping `u8` subtraction (release mode). -/
def u8_sub (a : Nat) (b : Nat) : Nat := (a % 256 + 256 - b % 256) % 256

/-- Wrapping `u8` addition (release mode). -/
def u8_add (a : Nat) (b : Nat) : Nat := (a + b) % 256

/-! ## Plays and history records (`play.rs`, `board.rs`) -/

structure Play where
  from_sq : Nat
  to_sq : Nat
  capture : Option Piece
  promote : Option PromotePiece
  en_passant : Bool
  castle : Bool
deriving DecidableEq, Repr

structure PlayState where
  play : Play
  en_passant : Option Coordinate
  castle : CastlePermissions
  fifty_move_rule : Nat
  position_key : Nat
deriving DecidableEq, Repr

def MAX_GAME_SIZE : Nat := 375

/-! ## The Zobrist table (`zorbrist.rs`), as an abstract parameter -/

structure Zorbrist where
  pieces : Nat → Piece → Color → Nat
  side : Nat
  en_passant_file : Nat → Nat

/-- `Zorbrist::get_piece_key`. -/
def Zorbrist.get_piece_key (z : Zorbrist) (index : Nat) (piece : Piece)
    (color : Color) : Nat :=
  z.pieces index piece color

/-- `Zorbrist::en_passant_key` (keys are per file: `index % 8`). -/
def Zorbrist.en_passant_key (z : Zorbrist) (index : Nat) : Nat :=
  z.en_passant_file (index % 8)

/-! ## Board geometry tables (`board.rs::BaseConversions`, `AttackMasks`) -/

/-- `BaseConversions::base_64_to_100`: 64-index to the 10x12 (100-cell)
index, `coordinate_to_large_index(rank, file) = (rank-1)*10 + file + 11`. -/
def base_64_to_100 (i : Nat) : Nat := i / 8 * 10 + i % 8 + 11

/-- `BaseConversions::base_100_to_64`: inverse table with `OFF_BOARD = 101`
sentinels in the padding ring. -/
def base_100_to_64 (j : Nat) : Nat :=
  if 11 ≤ j ∧ (j - 11) / 10 < 8 ∧ (j - 11) % 10 < 8 then
    (j - 11) / 10 * 8 + (j - 11) % 10
  else 101

/-- `BaseConversions::is_offboard`, extended to guard the `Int` scan position
(the source indexes a 100-entry array; scans never leave it). -/
def is_offboard (j : Int) : Bool :=
  decide (j < 0) || decide (100 ≤ j) || base_100_to_64 j.toNat == 101

/-- Fold a list of square offsets into a mask (`set_bit(index as u8)`). -/
def maskOfOffsets (i : Nat) (off : List Int) : Nat :=
  off.foldl (fun acc j => set_bit acc (Int.toNat (Int.ofNat i + j))) 0

/-- `AttackMasks::kings[i]`. -/
def kings_mask (i : Nat) : Nat :=
  let base : List Int := [-1, 1, -8, 8, 7, 9, -7, -9]
  let l1 :=
    if i ≤ 7 then base.filter (fun j => !([-7, -8, -9].contains j))
    else if 56 ≤ i then base.filter (fun j => !([7, 8, 9].contains j))
    else base
  let l2 :=
    if i % 8 == 0 then l1.filter (fun j => !([-1, -9, 7].contains j))
    else if i % 8 == 7 then l1.filter (fun j => !([1, -7, 9].contains j))
    else l1
  maskOfOffsets i l2

/-- `AttackMasks::white_pawns[i]` (squares from which a white pawn attacks
square `i`). -/
def white_pawns_mask (i : Nat) : Nat :=
  let b0 : List Int := if i ≤ 7 then [] else [-7, -9]
  let b1 :=
    if i % 8 == 0 then b0.filter (fun j => !([-9].contains j))
    else if i % 8 == 7 then b0.filter (fun j => !([-7].contains j))
    else b0
  maskOfOffsets i b1

/-- `AttackMasks::black_pawns[i]` (squares from which a black pawn attacks
square `i`). -/
def black_pawns_mask (i : Nat) : Nat :=
  let b0 : List Int := if 56 ≤ i then [] else [7, 9]
  let b1 :=
    if i % 8 == 0 then b0.filter (fun j => !([7].contains j))
    else if i % 8 == 7 then b0.filter (fun j => !([9].contains j))
    else b0
  maskOfOffsets i b1

/-- `AttackMasks::knights[i]`. -/
def knights_mask (i : Nat) : Nat :=
  ([15, 17, -15, -17, 6, 10, -6, -10] : List Int).foldl (fun acc j =>
    let idx : Int := Int.ofNat i + j
    if 0 ≤ idx ∧ idx < 64 then
      let rank_diff : Int := Int.ofNat i / 8 - idx / 8
      let file_diff : Int := Int.ofNat i % 8 - idx % 8
      if rank_diff.natAbs ≤ 2 ∧ file_diff.natAbs ≤ 2 then
        set_bit acc idx.toNat
      else acc
    else acc) 0

/-- `AttackMasks::straight[i]` (full rank and file through `i`). -/
def straight_attack_mask (i : Nat) : Nat :=
  (List.range 8).foldl (fun acc j =>
    set_bit (set_bit acc (i / 8 * 8 + j)) (i % 8 + j * 8)) 0

/-- One 10x12 ray scan with no blockers, starting at the current cell
(`j = 0` includes the origin), stopping at the sentinel ring. -/
def scan_dir (pos : Int) (k : Int) : Nat → Nat → Nat
  | 0, acc => acc
  | fuel + 1, acc =>
    if is_offboard pos then acc
    else scan_dir (pos + k) k fuel (set_bit acc (base_100_to_64 pos.toNat))

/-- `AttackMasks::diagonal[i]` (both diagonals through `i`, own square
included). -/
def diagonal_attack_mask (i : Nat) : Nat :=
  ([9, -9, 11, -11] : List Int).foldl
    (fun acc k => scan_dir (Int.ofNat (base_64_to_100 i)) k 9 acc) 0

/-! ## Magic bitboards (`magic.rs`) -/

/-- `BlockerMasks` straight mask: inner squares of rank and file (`j in 1..7`)
with the origin cleared. -/
def straight_blocker_mask (i : Nat) : Nat :=
  clear_bit
    ((List.range' 1 6).foldl (fun acc j =>
      set_bit (set_bit acc (i / 8 * 8 + j)) (i % 8 + j * 8)) 0) i

/-- `BlockerMasks` diagonal ray: each cell is recorded only when the next
cell along the ray is still on the board (edge cells cannot block). -/
def blocker_scan (pos : Int) (k : Int) : Nat → Nat → Nat
  | 0, acc => acc
  | fuel + 1, acc =>
    let curIdx := base_100_to_64 pos.toNat
    if is_offboard (pos + k) then acc
    else blocker_scan (pos + k) k fuel (set_bit acc curIdx)

/-- `BlockerMasks` diagonal mask with the origin cleared. -/
def diagonal_blocker_mask (i : Nat) : Nat :=
  clear_bit
    (([9, -9, 11, -11] : List Int).foldl
      (fun acc k => blocker_scan (Int.ofNat (base_64_to_100 i)) k 9 acc) 0) i

/-- `MoveBoards::gen_*_moves` ray leg: scan from the cell after the origin,
include the first blocker, stop there or at the board edge. -/
def slide_scan (pos : Int) (k : Int) (blockers : Nat) : Nat → Nat → Nat
  | 0, acc => acc
  | fuel + 1, acc =>
    let next := pos + k
    if is_offboard next then acc
    else
      let toIdx := base_100_to_64 next.toNat
      if is_bit_set blockers toIdx then set_bit acc toIdx
      else slide_scan next k blockers fuel (set_bit acc toIdx)

/-- `MoveBoards::gen_straight_moves`. -/
def gen_straight_moves (from_sq : Nat) (blocker_board : Nat) : Nat :=
  ([10, -10, 1, -1] : List Int).foldl
    (fun acc k => slide_scan (Int.ofNat (base_64_to_100 from_sq)) k blocker_board 9 acc) 0

/-- `MoveBoards::gen_diagonal_moves`. -/
def gen_diagonal_moves (from_sq : Nat) (blocker_board : Nat) : Nat :=
  ([9, -9, 11, -11] : List Int).foldl
    (fun acc k => slide_scan (Int.ofNat (base_64_to_100 from_sq)) k blocker_board 9 acc) 0

/-- `Magic::get_straight_move`.  The magic multiply-shift is a perfect hash
built by `find_magic` over every subset of the blocker mask, whose table
entry for a subset is `gen_straight_moves(square, subset)`; the lookup for an
occupancy therefore returns the generator applied to
`occupancy & blocker_mask`. -/
def get_straight_move (square : Nat) (mask : Nat) : Nat :=
  gen_straight_moves square (mask &&& straight_blocker_mask square)

/-- `Magic::get_diagonal_move`, by the same table contract. -/
def get_diagonal_move (square : Nat) (mask : Nat) : Nat :=
  gen_diagonal_moves square (mask &&& diagonal_blocker_mask square)

/-! ## The position (`board.rs::Board`) -/

structure Board where
  pawns : Nat
  knights : Nat
  bishops : Nat
  rooks : Nat
  queens : Nat
  kings : Nat
  white : Nat
  black : Nat
  active_color : Color
  castle : CastlePermissions
  en_passant : Option Coordinate
  ply : Nat
  line_ply : Nat
  move_number : Nat
  fifty_move_rule : Nat
  white_value : Nat
  black_value : Nat
  history : List (Option PlayState)
  key : Nat
deriving DecidableEq, Repr

/-- `Board::get_piece_index`. -/
def get_piece_index (b : Board) (index : Nat) : Option Piece :=
  if is_bit_set b.pawns index then some .Pawn
  else if is_bit_set b.knights index then some .Knight
  else if is_bit_set b.bishops index then some .Bishop
  else if is_bit_set b.rooks index then some .Rook
  else if is_bit_set b.queens index then some .Queen
  else if is_bit_set b.kings index then some .King
  else none

/-- `Board::get_piece_and_color_index`. -/
def get_piece_and_color_index (b : Board) (index : Nat) : Option (Piece × Color) :=
  match get_piece_index b index with
  | none => none
  | some piece =>
    if is_bit_set b.black index then some (piece, .Black)
    else if is_bit_set b.white index then some (piece, .White)
    else none

/-- `Board::set_piece_index`. -/
def set_piece_index (z : Zorbrist) (b : Board) (index : Nat) (piece : Piece)
    (color : Color) : Board :=
  let b := { b with key := b.key ^^^ z.get_piece_key index piece color }
  let b :=
    match piece with
    | .Pawn => { b with pawns := set_bit b.pawns index }
    | .Knight => { b with knights := set_bit b.knights index }
    | .Bishop => { b with bishops := set_bit b.bishops index }
    | .Rook => { b with rooks := set_bit b.rooks index }
    | .Queen => { b with queens := set_bit b.queens index }
    | .King => { b with kings := set_bit b.kings index }
  match color with
  | .Black => { b with
      black := set_bit b.black index
      black_value := wadd32 b.black_value piece.material_value }
  | .White => { b with
      white := set_bit b.white index
      white_value := wadd32 b.white_value piece.material_value }

/-- `Board::clear_piece_index`. -/
def clear_piece_index (z : Zorbrist) (b : Board) (index : Nat) (piece : Piece)
    (color : Color) : Board :=
  let b := { b with key := b.key ^^^ z.get_piece_key index piece color }
  let b :=
    match piece with
    | .Pawn => { b with pawns := clear_bit b.pawns index }
    | .Knight => { b with knights := clear_bit b.knights index }
    | .Bishop => { b with bishops := clear_bit b.bishops index }
    | .Rook => { b with rooks := clear_bit b.rooks index }
    | .Queen => { b with queens := clear_bit b.queens index }
    | .King => { b with kings := clear_bit b.kings index }
  match color with
  | .Black => { b with
      black := clear_bit b.black index
      black_value := wsub32 b.black_value piece.material_value }
  | .White => { b with
      white := clear_bit b.white index
      white_value := wsub32 b.white_value piece.material_value }

/-- `Board::move_piece`. -/
def move_piece (z : Zorbrist) (b : Board) (fr : Nat) (to_sq : Nat)
    (piece : Piece) (promote_piece : Option PromotePiece) (color : Color) : Board :=
  let b := clear_piece_index z b fr piece color
  match promote_piece with
  | some promote => set_piece_index z b to_sq promote.toPiece color
  | none => set_piece_index z b to_sq piece color

/-- `Board::square_attacked`. -/
def square_attacked (b : Board) (index : Nat) (color : Color) : Bool :=
  let all := b.black ||| b.white
  let color_mask := match color with | .Black => b.black | .White => b.white
  let pawn_mask := match color with
    | .Black => black_pawns_mask index
    | .White => white_pawns_mask index
  if pawn_mask &&& b.pawns &&& color_mask != 0 then true
  else if knights_mask index &&& b.knights &&& color_mask != 0 then true
  else
    let bishop_or_queen := (b.bishops ||| b.queens) &&& color_mask
    if diagonal_attack_mask index &&& bishop_or_queen != 0 &&
        get_diagonal_move index all &&& bishop_or_queen != 0 then true
    else
      let rook_or_queen := (b.rooks ||| b.queens) &&& color_mask
      if straight_attack_mask index &&& rook_or_queen != 0 &&
          get_straight_move index all &&& rook_or_queen != 0 then true
      else if kings_mask index &&& b.kings &&& color_mask != 0 then true
      else false

/-- `Board::is_repetition`: the current key occurs at least twice among the
stored history records. -/
def is_repetition (b : Board) : Bool :=
  2 ≤ ((b.history.filterMap id).filter (fun h => h.position_key == b.key)).length

/-- `Board::is_king_attacked`; `none` models the panic when the side to move
has no king bit. -/
def is_king_attacked (b : Board) : Option Bool :=
  let (idx, opposing_color) := match b.active_color with
    | .White => (get_set_bits (b.kings &&& b.white), Color.Black)
    | .Black => (get_set_bits (b.kings &&& b.black), Color.White)
  idx.head?.map (fun i => square_attacked b i opposing_color)

/-- `board.rs` square constants: A1=0 B1=1 C1=2 D1=3 E1=4 F1=5 G1=6 H1=7,
A8=56 .. H8=63; the castling path masks. -/
def B1_C1_D1 : Nat := set_bit (set_bit (set_bit 0 1) 2) 3

def F1_G1 : Nat := set_bit (set_bit 0 5) 6

def B8_C8_D8 : Nat := set_bit (set_bit (set_bit 0 57) 58) 59

def F8_G8 : Nat := set_bit (set_bit 0 61) 62

/-- `Board::generate_captures`. -/
def generate_captures (b : Board) : List Play :=
  let (color_mask, capture_mask) := match b.active_color with
    | Color.Black => (b.black, b.white)
    | Color.White => (b.white, b.black)
  let all_pieces := b.black ||| b.white
  let knight_moves := (get_set_bits (b.knights &&& color_mask)).flatMap (fun fr =>
    (get_set_bits (knights_mask fr &&& capture_mask)).map (fun to_sq =>
      { from_sq := fr, to_sq := to_sq, capture := get_piece_index b to_sq,
        promote := none, en_passant := false, castle := false }))
  let qr_moves := (get_set_bits ((b.queens ||| b.rooks) &&& color_mask)).flatMap (fun fr =>
    (get_set_bits (get_straight_move fr all_pieces &&& capture_mask)).map (fun to_sq =>
      { from_sq := fr, to_sq := to_sq, capture := get_piece_index b to_sq,
        promote := none, en_passant := false, castle := false }))
  let qb_moves := (get_set_bits ((b.queens ||| b.bishops) &&& color_mask)).flatMap (fun fr =>
    (get_set_bits (get_diagonal_move fr all_pieces &&& capture_mask)).map (fun to_sq =>
      { from_sq := fr, to_sq := to_sq, capture := get_piece_index b to_sq,
        promote := none, en_passant := false, castle := false }))
  let king_moves := (get_set_bits (b.kings &&& color_mask)).flatMap (fun fr =>
    (get_set_bits (kings_mask fr &&& capture_mask)).map (fun to_sq =>
      { from_sq := fr, to_sq := to_sq, capture := get_piece_index b to_sq,
        promote := none, en_passant := false, castle := false }))
  let pawn_moves := (get_set_bits (b.pawns &&& color_mask)).flatMap (fun fr =>
    let rank := fr / 8 + 1
    let can_promote := match b.active_color with
      | Color.White => rank == 7
      | Color.Black => rank == 2
    let pmask := match b.active_color with
      | Color.White => black_pawns_mask fr
      | Color.Black => white_pawns_mask fr
    let diag := (get_set_bits (pmask &&& capture_mask)).flatMap (fun to_sq =>
      let capture := get_piece_index b to_sq
      if can_promote then
        PromotePiece.VARIANTS.map (fun p =>
          { from_sq := fr, to_sq := to_sq, capture := capture, promote := some p,
            en_passant := false, castle := false })
      else
        [{ from_sq := fr, to_sq := to_sq, capture := capture, promote := none,
           en_passant := false, castle := false }])
    let ep := match b.en_passant with
      | some c =>
        let i := c.as_index
        if (match b.active_color with
            | Color.White => is_bit_set (black_pawns_mask fr) i
            | Color.Black => is_bit_set (white_pawns_mask fr) i) then
          [{ from_sq := fr, to_sq := i, capture := some .Pawn, promote := none,
             en_passant := true, castle := false }]
        else []
      | none => []
    diag ++ ep)
  knight_moves ++ qr_moves ++ qb_moves ++ king_moves ++ pawn_moves

/-- `Board::generate_moves`. -/
def generate_moves (b : Board) : List Play :=
  let (color_mask, capture_mask) := match b.active_color with
    | Color.Black => (b.black, b.white)
    | Color.White => (b.white, b.black)
  let all_pieces := b.black ||| b.white
  let knight_moves := (get_set_bits (b.knights &&& color_mask)).flatMap (fun fr =>
    (get_set_bits (knights_mask fr &&& (U64MASK ^^^ color_mask))).map (fun to_sq =>
      { from_sq := fr, to_sq := to_sq, capture := get_piece_index b to_sq,
        promote := none, en_passant := false, castle := false }))
  let qr_moves := (get_set_bits ((b.queens ||| b.rooks) &&& color_mask)).flatMap (fun fr =>
    (get_set_bits (get_straight_move fr all_pieces &&& (U64MASK ^^^ color_mask))).map (fun to_sq =>
      { from_sq := fr, to_sq := to_sq, capture := get_piece_index b to_sq,
        promote := none, en_passant := false, castle := false }))
  let qb_moves := (get_set_bits ((b.queens ||| b.bishops) &&& color_mask)).flatMap (fun fr =>
    (get_set_bits (get_diagonal_move fr all_pieces &&& (U64MASK ^^^ color_mask))).map (fun to_sq =>
      { from_sq := fr, to_sq := to_sq, capture := get_piece_index b to_sq,
        promote := none, en_passant := false, castle := false }))
  let king_moves := (get_set_bits (b.kings &&& color_mask)).flatMap (fun fr =>
    let basic := (get_set_bits (kings_mask fr &&& (U64MASK ^^^ color_mask))).map (fun to_sq =>
      { from_sq := fr, to_sq := to_sq, capture := get_piece_index b to_sq,
        promote := none, en_passant := false, castle := false })
    let castles : List Play := match b.active_color with
      | Color.White =>
        if b.castle.white_king_side || b.castle.white_queen_side then
          if !(square_attacked b 4 Color.Black) then
            (if b.castle.white_queen_side && (B1_C1_D1 &&& all_pieces == 0)
                && !(square_attacked b 2 Color.Black)
                && !(square_attacked b 3 Color.Black) then
              [{ from_sq := fr, to_sq := 2, capture := none, promote := none,
                 en_passant := false, castle := true }]
            else []) ++
            (if b.castle.white_king_side && (F1_G1 &&& all_pieces == 0)
                && !(square_attacked b 5 Color.Black)
                && !(square_attacked b 6 Color.Black) then
              [{ from_sq := fr, to_sq := 6, capture := none, promote := none,
                 en_passant := false, castle := true }]
            else [])
          else []
        else []
      | Color.Black =>
        if b.castle.black_king_side || b.castle.black_queen_side then
          if !(square_attacked b 60 Color.White) then
            (if b.castle.black_queen_side && (B8_C8_D8 &&& all_pieces == 0)
                && !(square_attacked b 58 Color.White)
                && !(square_attacked b 59 Color.White) then
              [{ from_sq := fr, to_sq := 58, capture := none, promote := none,
                 en_passant := false, castle := true }]
            else []) ++
            (if b.castle.black_king_side && (F8_G8 &&& all_pieces == 0)
                && !(square_attacked b 61 Color.White)
                && !(square_attacked b 62 Color.White) then
              [{ from_sq := fr, to_sq := 62, capture := none, promote := none,
                 en_passant := false, castle := true }]
            else [])
          else []
        else []
    basic ++ castles)
  let pawn_moves := (get_set_bits (b.pawns &&& color_mask)).flatMap (fun fr =>
    let rank := fr / 8 + 1
    let can_promote := match b.active_color with
      | Color.White => rank == 7
      | Color.Black => rank == 2
    let pmask := match b.active_color with
      | Color.White => black_pawns_mask fr
      | Color.Black => white_pawns_mask fr
    let diag := (get_set_bits (pmask &&& capture_mask)).flatMap (fun to_sq =>
      let capture := get_piece_index b to_sq
      if can_promote then
        PromotePiece.VARIANTS.map (fun p =>
          { from_sq := fr, to_sq := to_sq, capture := capture, promote := some p,
            en_passant := false, castle := false })
      else
        [{ from_sq := fr, to_sq := to_sq, capture := capture, promote := none,
           en_passant := false, castle := false }])
    let fwd :=
      let to1 : Int := match b.active_color with
        | Color.White => Int.ofNat fr + 8
        | Color.Black => Int.ofNat fr - 8
      if 0 ≤ to1 ∧ to1 < 64 ∧ ¬ (is_bit_set all_pieces to1.toNat = true) then
        if can_promote then
          PromotePiece.VARIANTS.map (fun p =>
            { from_sq := fr, to_sq := to1.toNat, capture := none, promote := some p,
              en_passant := false, castle := false })
        else
          [{ from_sq := fr, to_sq := to1.toNat, capture := none, promote := none,
             en_passant := false, castle := false }] ++
          (if (match b.active_color with
               | Color.White => rank == 2
               | Color.Black => rank == 7) then
            let to2 : Int := match b.active_color with
              | Color.White => to1 + 8
              | Color.Black => to1 - 8
            if ¬ (is_bit_set all_pieces to2.toNat = true) then
              [{ from_sq := fr, to_sq := to2.toNat, capture := none, promote := none,
                 en_passant := false, castle := false }]
            else []
          else [])
      else []
    let ep := match b.en_passant with
      | some c =>
        let i := c.as_index
        if (match b.active_color with
            | Color.White => is_bit_set (black_pawns_mask fr) i
            | Color.Black => is_bit_set (white_pawns_mask fr) i) then
          [{ from_sq := fr, to_sq := i, capture := some .Pawn, promote := none,
             en_passant := true, castle := false }]
        else []
      | none => []
    diag ++ fwd ++ ep)
  knight_moves ++ qr_moves ++ qb_moves ++ king_moves ++ pawn_moves

/-! ## Make / undo (`board.rs`) -/

/-- `Board::undo_move`.  `none` models the panics: undoing with `ply = 0` or
an empty history slot, an empty `to` square, or an impossible castle target.
The source restores the Zobrist key by reversing each toggle, not by copying
`position_key` from the record. -/
def undo_move (z : Zorbrist) (b : Board) : Option Board :=
  if b.ply == 0 then none
  else
    (b.history.get? (b.ply - 1)).bind (fun slot => slot.bind (fun history =>
      let play := history.play
      let opposing_color := match b.active_color with
        | Color.White => Color.Black
        | Color.Black => Color.White
      let b := { b with
        history := b.history.set (b.ply - 1) none
        key := if b.en_passant.isSome then b.key ^^^ z.en_passant_key play.to_sq
          else b.key
        castle := history.castle
        en_passant := history.en_passant
        fifty_move_rule := history.fifty_move_rule
        ply := b.ply - 1
        line_ply := b.line_ply - 1
        move_number := if opposing_color == Color.Black then b.move_number - 1
          else b.move_number }
      let b := if is_bit_set b.pawns play.to_sq then
          if play.en_passant then
            let en_passant_index := match opposing_color with
              | Color.White => u8_sub play.to_sq 8
              | Color.Black => u8_add play.to_sq 8
            set_piece_index z b en_passant_index .Pawn b.active_color
          else b
        else b
      (get_piece_index b play.to_sq).bind (fun from_piece =>
        let b := match play.promote with
          | some promote =>
            set_piece_index z (clear_piece_index z b play.to_sq promote.toPiece opposing_color)
              play.from_sq .Pawn opposing_color
          | none =>
            set_piece_index z (clear_piece_index z b play.to_sq from_piece opposing_color)
              play.from_sq from_piece opposing_color
        let b := match play.capture with
          | some capture =>
            if !play.en_passant then
              set_piece_index z b play.to_sq capture b.active_color
            else b
          | none => b
        let rook_moved : Option Board :=
          if play.castle then
            match play.to_sq with
            | 2 => some (move_piece z b 3 0 .Rook none opposing_color)
            | 58 => some (move_piece z b 59 56 .Rook none opposing_color)
            | 6 => some (move_piece z b 5 7 .Rook none opposing_color)
            | 62 => some (move_piece z b 61 63 .Rook none opposing_color)
            | _ => none
          else some b
        rook_moved.bind (fun b =>
          some { b with active_color := opposing_color, key := b.key ^^^ z.side }))))

/-- The castling-permission clearing of `make_move` keyed on the from
square (A1, E1, H1, A8, E8, H8). -/
def castle_update_from (c : CastlePermissions) (fr : Nat) : CastlePermissions :=
  if fr == 0 then { c with white_queen_side := false }
  else if fr == 4 then { c with white_queen_side := false, white_king_side := false }
  else if fr == 7 then { c with white_king_side := false }
  else if fr == 56 then { c with black_queen_side := false }
  else if fr == 60 then { c with black_queen_side := false, black_king_side := false }
  else if fr == 63 then { c with black_king_side := false }
  else c

/-- The castling-permission clearing of `make_move` keyed on the to square
(covers capturing an unmoved rook). -/
def castle_update_to (c : CastlePermissions) (to_sq : Nat) : CastlePermissions :=
  if to_sq == 0 then { c with white_queen_side := false }
  else if to_sq == 7 then { c with white_king_side := false }
  else if to_sq == 56 then { c with black_queen_side := false }
  else if to_sq == 63 then { c with black_king_side := false }
  else c

/-- The mutation phase of `Board::make_move` (everything before the final
legality check): returns the just-moved side's king square and the fully
applied position.  `none` models the panics: a history write past
`MAX_GAME_SIZE`, an empty `from` square, an impossible castle target, or a
missing king. -/
def make_move_apply (z : Zorbrist) (b : Board) (play : Play) : Option (Nat × Board) :=
  if MAX_GAME_SIZE ≤ b.ply then none
  else
    let opposing_color := match b.active_color with
      | Color.White => Color.Black
      | Color.Black => Color.White
    let b := { b with
      history := b.history.set b.ply (some
        { play := play, en_passant := b.en_passant, castle := b.castle,
          fifty_move_rule := b.fifty_move_rule, position_key := b.key })
      castle := castle_update_to (castle_update_from b.castle play.from_sq) play.to_sq
      en_passant := none }
    let b :=
      if is_bit_set b.pawns play.from_sq then
        let b :=
          if (Int.ofNat play.from_sq - Int.ofNat play.to_sq).natAbs == 16 then
            { b with
              fifty_move_rule := 0
              en_passant := some (Coordinate.from_index
                (match b.active_color with
                 | Color.White => u8_sub play.to_sq 8
                 | Color.Black => u8_add play.to_sq 8))
              key := b.key ^^^ z.en_passant_key play.to_sq }
          else { b with fifty_move_rule := 0 }
        if play.en_passant then
          let clear_index := match b.active_color with
            | Color.White => u8_sub play.to_sq 8
            | Color.Black => u8_add play.to_sq 8
          clear_piece_index z b clear_index .Pawn opposing_color
        else b
      else b
    let b := match play.capture with
      | some capture =>
        if !play.en_passant then
          clear_piece_index z { b with fifty_move_rule := 0 } play.to_sq capture opposing_color
        else b
      | none => b
    (get_piece_index b play.from_sq).bind (fun from_piece =>
      let b := move_piece z b play.from_sq play.to_sq from_piece play.promote b.active_color
      let rook_moved : Option Board :=
        if play.castle then
          match play.to_sq with
          | 2 => some (move_piece z b 0 3 .Rook none b.active_color)
          | 58 => some (move_piece z b 56 59 .Rook none b.active_color)
          | 6 => some (move_piece z b 7 5 .Rook none b.active_color)
          | 62 => some (move_piece z b 63 61 .Rook none b.active_color)
          | _ => none
        else some b
      rook_moved.bind (fun b =>
        let b := { b with
          ply := b.ply + 1
          line_ply := b.line_ply + 1
          move_number := if b.active_color == Color.Black then b.move_number + 1
            else b.move_number }
        ((get_set_bits (b.kings &&& (match b.active_color with
            | Color.White => b.white
            | Color.Black => b.black))).head?).bind (fun king_index =>
          let b := { b with active_color := opposing_color, key := b.key ^^^ z.side }
          some (king_index, b))))

/-- `Board::make_move`: apply the mutation, then if the just-moved side's
king is attacked by the side now to move, undo and report `false`. -/
def make_move (z : Zorbrist) (b : Board) (play : Play) : Option (Bool × Board) :=
  match make_move_apply z b play with
  | none => none
  | some (king_index, bA) =>
    if square_attacked bA king_index bA.active_color then
      match undo_move z bA with
      | some b2 => some (false, b2)
      | none => none
    else some (true, bA)

/-! ## FEN parsing (`board.rs::from_fen`) and material recomputation -/

/-- `Board::material_value`: popcount of each piece set times its value,
summed per colour. -/
def material_value_calc (b : Board) : Nat × Nat :=
  let white_value :=
    pop_count (b.pawns &&& b.white) * Piece.Pawn.material_value +
    pop_count (b.knights &&& b.white) * Piece.Knight.material_value +
    pop_count (b.bishops &&& b.white) * Piece.Bishop.material_value +
    pop_count (b.rooks &&& b.white) * Piece.Rook.material_value +
    pop_count (b.queens &&& b.white) * Piece.Queen.material_value +
    pop_count (b.kings &&& b.white) * Piece.King.material_value
  let black_value :=
    pop_count (b.pawns &&& b.black) * Piece.Pawn.material_value +
    pop_count (b.knights &&& b.black) * Piece.Knight.material_value +
    pop_count (b.bishops &&& b.black) * Piece.Bishop.material_value +
    pop_count (b.rooks &&& b.black) * Piece.Rook.material_value +
    pop_count (b.queens &&& b.black) * Piece.Queen.material_value +
    pop_count (b.kings &&& b.black) * Piece.King.material_value
  (white_value, black_value)

/-- `Board::set_piece` (rank/file form). -/
def set_piece (z : Zorbrist) (b : Board) (piece : Piece) (color : Color)
    (rank : Nat) (file : Nat) : Board :=
  set_piece_index z b (coordinate_to_index rank file) piece color

/-- The piece-placement loop of `from_fen`: walks the characters, tracking
`rank` (errors once it drops below 1 and another character arrives) and
`file` (advanced modulo 8 by `File::add`). -/
def parse_pieces (z : Zorbrist) : List Char → Nat → Nat → Board → Option Board
  | [], _, _, b => some b
  | c :: rest, rank, file, b =>
    if rank < 1 then none
    else
      let piece : Option (Option Piece) := match c with
        | 'p' | 'P' => some (some .Pawn)
        | 'n' | 'N' => some (some .Knight)
        | 'b' | 'B' => some (some .Bishop)
        | 'r' | 'R' => some (some .Rook)
        | 'q' | 'Q' => some (some .Queen)
        | 'k' | 'K' => some (some .King)
        | '/' => some none
        | '1' | '2' | '3' | '4' | '5' | '6' | '7' | '8' => some none
        | _ => none
      match piece with
      | none => none
      | some p? =>
        let b := match p? with
          | some p =>
            let color := if c.isUpper then Color.White else Color.Black
            set_piece z b p color rank file
          | none => b
        match c with
        | '1' | '2' | '3' | '4' | '5' | '6' | '7' | '8' =>
          parse_pieces z rest rank (file_add file (c.toNat - 48)) b
        | '/' => parse_pieces z rest (rank - 1) 0 b
        | _ => parse_pieces z rest rank (file_add file 1) b

/-- `Board::from_fen` (`impl Game for Board`).  `none` is an `Err` or a
panic.  Extra whitespace-separated fields are ignored, as in the source. -/
def from_fen (z : Zorbrist) (fen : String) : Option Board :=
  let parts := split_spaces fen.toList
  match parts.get? 0, parts.get? 1, parts.get? 2, parts.get? 3,
      parts.get? 4, parts.get? 5 with
  | some position, some color_part, some castle_part, some ep_part,
      some half_part, some full_part =>
    let active_color_token : Option Char :=
      if color_part.length == 1 then color_part.head? else none
    match active_color_token with
    | none => none
    | some ct =>
      match color_from_char ct, castle_from_fen castle_part,
          coordinate_from_string ep_part, parse_usize half_part,
          parse_usize full_part with
      | some active_color, some castle, some en_passant, some half_move_clock,
          some full_move_clock =>
        let board : Board := {
          pawns := 0, knights := 0, bishops := 0, rooks := 0, queens := 0,
          kings := 0, white := 0, black := 0,
          active_color := active_color,
          castle := castle,
          en_passant := en_passant,
          ply := full_move_clock * 2,
          line_ply := 0,
          move_number := full_move_clock,
          fifty_move_rule := half_move_clock,
          white_value := 0, black_value := 0,
          history := List.replicate MAX_GAME_SIZE none,
          key := 2340980257093 }
        let board := if active_color == Color.Black then
            { board with ply := board.ply + 1 }
          else board
        match parse_pieces z position 8 0 board with
        | none => none
        | some board =>
          let mv := material_value_calc board
          some { board with white_value := mv.1, black_value := mv.2 }
      | _, _, _, _, _ => none
  | _, _, _, _, _, _ => none

/-! ## Piece-square tables (`pvt.rs`) and evaluation -/

/-- `pvt.rs::mirror`: `rchunks_exact(8).flatten()`, i.e. the ranks in
reverse order. -/
def mirror (l : List Int) : List Int :=
  (List.range 8).flatMap (fun k => (l.drop (8 * (7 - k))).take 8)

def pawns_table : List Int :=
  [0, 0, 0, 0, 0, 0, 0, 0,
   50, 50, 50, 50, 50, 50, 50, 50,
   10, 10, 20, 30, 30, 20, 10, 10,
   5, 5, 10, 25, 25, 10, 5, 5,
   0, 0, 0, 20, 20, 0, 0, 0,
   5, -5, -10, 0, 0, -10, -5, 5,
   5, 10, 10, -20, -20, 10, 10, 5,
   0, 0, 0, 0, 0, 0, 0, 0]

def knights_table : List Int :=
  [-50, -40, -30, -30, -30, -30, -40, -50,
   -40, -20, 0, 0, 0, 0, -20, -40,
   -30, 0, 10, 15, 15, 10, 0, -30,
   -30, 5, 15, 20, 20, 15, 5, -30,
   -30, 0, 15, 20, 20, 15, 0, -30,
   -30, 5, 10, 15, 15, 10, 5, -30,
   -40, -20, 0, 5, 5, 0, -20, -40,
   -50, -40, -30, -30, -30, -30, -40, -50]

def bishops_table : List Int :=
  [-20, -10, -10, -10, -10, -10, -10, -20,
   -10, 0, 0, 0, 0, 0, 0, -10,
   -10, 0, 5, 10, 10, 5, 0, -10,
   -10, 5, 5, 10, 10, 5, 5, -10,
   -10, 0, 10, 10, 10, 10, 0, -10,
   -10, 10, 10, 10, 10, 10, 10, -10,
   -10, 5, 0, 0, 0, 0, 5, -10,
   -20, -10, -10, -10, -10, -10, -10, -20]

def rooks_table : List Int :=
  [0, 0, 0, 0, 0, 0, 0, 0,
   5, 10, 10, 10, 10, 10, 10, 5,
   -5, 0, 0, 0, 0, 0, 0, -5,
   -5, 0, 0, 0, 0, 0, 0, -5,
   -5, 0, 0, 0, 0, 0, 0, -5,
   -5, 0, 0, 0, 0, 0, 0, -5,
   -5, 0, 0, 0, 0, 0, 0, -5,
   0, 0, 0, 5, 5, 0, 0, 0]

def queens_table : List Int :=
  [-20, -10, -10, -5, -5, -10, -10, -20,
   -10, 0, 0, 0, 0, 0, 0, -10,
   -10, 0, 5, 5, 5, 5, 0, -10,
   -5, 0, 5, 5, 5, 5, 0, -5,
   0, 0, 5, 5, 5, 5, 0, -5,
   -10, 5, 5, 5, 5, 5, 0, -10,
   -10, 0, 5, 0, 0, 0, 0, -10,
   -20, -10, -10, -5, -5, -10, -10, -20]

/-- `PieceValueTables::get_value` (indices are always below 64 at the call
sites, so `getD _ 0` coincides with the array access). -/
def pvt_get_value (index : Nat) (piece : Piece) (color : Color) : Int :=
  match piece, color with
  | .Pawn, .White => pawns_table.getD index 0
  | .Knight, .White => knights_table.getD index 0
  | .Bishop, .White => bishops_table.getD index 0
  | .Rook, .White => rooks_table.getD index 0
  | .Queen, .White => queens_table.getD index 0
  | .Pawn, .Black => (mirror pawns_table).getD index 0
  | .Knight, .Black => (mirror knights_table).getD index 0
  | .Bishop, .Black => (mirror bishops_table).getD index 0
  | .Rook, .Black => (mirror rooks_table).getD index 0
  | .Queen, .Black => (mirror queens_table).getD index 0
  | .King, _ => 0

/-- `Board::piece_value`. -/
def piece_value (b : Board) (index : Nat) : Int :=
  match get_piece_and_color_index b index with
  | some (p, .White) => pvt_get_value index p .White
  | some (p, .Black) => -(pvt_get_value index p .Black)
  | none => 0

/-- `Board::eval`. -/
def eval (b : Board) : Int :=
  let e := Int.ofNat b.white_value - Int.ofNat b.black_value
  let score := (List.range 64).foldl (fun acc i => acc + piece_value b i) 0
  let e := e + score
  match b.active_color with
  | .White => e
  | .Black => -e

/-! ## Move ordering (`play.rs::Play::mmv_lva`) -/

/-- `Play::mmv_lva`. -/
def mmv_lva (play : Play) (board : Board) : Nat :=
  match play.capture with
  | none => 0
  | some victim =>
    let victim_score : Nat := match victim with
      | .Pawn => 10
      | .Knight => 25
      | .Bishop => 40
      | .Rook => 40
      | .Queen => 50
      | .King => 100
    match get_piece_index board play.from_sq with
    | none => 0
    | some attacker =>
      let attacker_score : Nat := match attacker with
        | .Pawn => 1
        | .Knight => 2
        | .Bishop => 3
        | .Rook => 4
        | .Queen => 5
        | .King => 6
      victim_score + attacker_score

/-! ## Transposition table and searcher state (`engine.rs`) -/

def CHECKMATE_SCORE : Int := 800000

def MAX_DEPTH : Nat := 20

inductive Node where
  | Exact
  | Alpha
  | Beta
  | Ordering
deriving DecidableEq, Repr

structure Pv where
  next_key : Nat
  play : Play
  score : Int
  depth : Nat
  node : Node
deriving DecidableEq, Repr

structure HashTable where
  table : List (Option Pv)
  capacity : Nat
deriving DecidableEq, Repr

/-- `HashTable::get`. -/
def HashTable.get (h : HashTable) (index : Nat) : Option Pv :=
  (h.table.get? (index % h.capacity)).join

/-- `HashTable::set`: an Exact entry is sticky against non-Exact writes. -/
def HashTable.set (h : HashTable) (index : Nat) (pv : Pv) : HashTable :=
  let key := index % h.capacity
  match (h.table.get? key).join with
  | some old_pv =>
    if old_pv.node = Node.Exact ∧ pv.node ≠ Node.Exact then h
    else { h with table := h.table.set key (some pv) }
  | none => { h with table := h.table.set key (some pv) }

/-- The mutable searcher fields of `AlphaBeta` that `alpha_beta` touches.
The wall-clock fields (`start_time`, `search_duration`) are replaced by the
stop oracle parameter below. -/
structure SearcherState where
  board : Board
  nodes : Nat
  moves : HashTable
  selective_depth : Nat
  search_depth : Nat
  should_stop : Bool
deriving DecidableEq, Repr

/-- `AlphaBeta::check_if_should_stop`: `elapsed >= duration` is a reading of
the environment, modelled by the oracle; `none` is the no-duration case in
which the flag is left unchanged. -/
def check_if_should_stop (stop_oracle : Nat → Option Bool)
    (st : SearcherState) : SearcherState :=
  { st with should_stop := (stop_oracle st.nodes).getD st.should_stop }

/-- `AlphaBeta::get_transposition`. -/
def get_transposition (st : SearcherState) (key : Nat) (alpha : Int)
    (beta : Int) (depth : Nat) : Option Pv × Bool :=
  match st.moves.get key with
  | some pv =>
    if depth ≤ pv.depth then
      match pv.node with
      | .Exact => (some pv, true)
      | .Alpha => if pv.score ≤ alpha then (some pv, true) else (none, false)
      | .Beta => if beta ≤ pv.score then (some pv, true) else (none, false)
      | .Ordering => (none, false)
    else (none, false)
  | none => (none, false)

/-- The `sort_by_cached_key` key in `alpha_beta` and `quiescence`:
`-(mmv_lva + 100000 if the move equals the probed best move)`. -/
def sort_key (pv_line : Option Pv) (b : Board) (m : Play) : Int :=
  let score := mmv_lva m b
  let score :=
    (match pv_line with
     | some pv => if pv.play == m then score + 100000 else score
     | none => score)
  Int.neg (Int.ofNat score)

/-- Outcome of the move loop of `alpha_beta`: an early `return` (stop flag or
beta cutoff) or fall-through with the loop-carried locals. -/
inductive LoopResult where
  | early (value : Int) (st : SearcherState)
  | done (st : SearcherState) (alpha : Int) (found_legal_move : Bool)
      (best_move : Option Play) (best_board : Option Nat)
deriving DecidableEq

/-- The `for m in &moves` loop of `AlphaBeta::alpha_beta`.  `recurse` stands
for the recursive `alpha_beta` call (scores and state threaded through);
`none` models a panic. -/
def ab_loop (z : Zorbrist)
    (recurse : SearcherState → Int → Int → Nat → Option (Int × SearcherState))
    (beta : Int) (depth : Nat) :
    List Play → SearcherState → Int → Bool → Option Play → Option Nat →
    Option LoopResult
  | [], st, alpha, found, bm, bb => some (.done st alpha found bm bb)
  | m :: rest, st, alpha, found, bm, bb =>
    match make_move z st.board m with
    | none => none
    | some (false, b2) =>
      ab_loop z recurse beta depth rest { st with board := b2 } alpha found bm bb
    | some (true, b2) =>
      let st := { st with board := b2 }
      match recurse st (-beta) (-alpha) (depth - 1) with
      | none => none
      | some (s, st) =>
        let score := -s
        if st.should_stop then
          match undo_move z st.board with
          | none => none
          | some b3 => some (.early 0 { st with board := b3 })
        else if alpha < score then
          let bm := some m
          let bb := some st.board.key
          if beta ≤ score then
            match undo_move z st.board with
            | none => none
            | some b3 =>
              let st := { st with board := b3 }
              let entry : Pv := { play := m, next_key := bb.getD 0, depth := depth, score := beta, node := .Beta }
              let st := { st with moves := st.moves.set st.board.key entry }
              some (.early beta st)
          else
            match undo_move z st.board with
            | none => none
            | some b3 =>
              ab_loop z recurse beta depth rest { st with board := b3 } score true bm bb
        else
          match undo_move z st.board with
          | none => none
          | some b3 =>
            ab_loop z recurse beta depth rest { st with board := b3 } alpha true bm bb

/-- One invocation of `AlphaBeta::alpha_beta`, with the recursive call and the
quiescence call abstracted as function parameters (the real searcher is their
fixpoint) and the wall clock abstracted as `stop_oracle`.  Returns the score
and the mutated searcher state; `none` models a panic. -/
def alpha_beta_step (z : Zorbrist)
    (recurse : SearcherState → Int → Int → Nat → Option (Int × SearcherState))
    (quiesce : SearcherState → Int → Int → Option (Int × SearcherState))
    (stop_oracle : Nat → Option Bool)
    (st : SearcherState) (alpha : Int) (beta : Int) (depth : Nat) :
    Option (Int × SearcherState) :=
  let st := if st.nodes % 3000 == 0 then check_if_should_stop stop_oracle st else st
  let st := { st with selective_depth := max st.selective_depth st.board.line_ply }
  let st := { st with nodes := st.nodes + 1 }
  if 100 ≤ st.board.fifty_move_rule || is_repetition st.board then some (0, st)
  else
    match is_king_attacked st.board with
    | none => none
    | some in_check =>
      let depth := if in_check then depth + 1 else depth
      if depth == 0 then
        if 4 ≤ st.search_depth then quiesce st alpha beta
        else some (eval st.board, st)
      else
        let probe := get_transposition st st.board.key alpha beta depth
        if probe.2 then
          match probe.1 with
          | some pv => some (pv.score, st)
          | none => none
        else
          let moves := (generate_moves st.board).mergeSort
            (fun m1 m2 => decide (sort_key probe.1 st.board m1 ≤ sort_key probe.1 st.board m2))
          match ab_loop z recurse beta depth moves st alpha false none none with
          | none => none
          | some (.early v st) => some (v, st)
          | some (.done st alpha2 found bm bb) =>
            if !found then
              if in_check then some (-CHECKMATE_SCORE + Int.ofNat st.board.line_ply, st)
              else some (0, st)
            else if alpha2 ≠ alpha then
              match bm, bb with
              | some play, some nk =>
                let entry : Pv := { play := play, next_key := nk, depth := depth, score := alpha2, node := .Exact }
                some (alpha2, { st with moves := st.moves.set st.board.key entry })
              | _, _ => none
            else
              match bm with
              | some play =>
                match bb with
                | some nk =>
                  let entry : Pv := { play := play, next_key := nk, depth := depth, score := alpha2, node := .Alpha }
                  some (alpha2, { st with moves := st.moves.set st.board.key entry })
                | none => none
              | none => some (alpha2, st)

/-! ## UCI search duration (`uci.rs::parse_go`) -/

/-- The duration computation of `UCI::parse_go`: `time/40 (+ inc)`, minus a
safety margin of `min(duration/10, 50)` milliseconds. -/
def parse_go_duration (time : Nat) (increment : Option Nat) : Nat :=
  let duration := match increment with
    | some inc => time / 40 + inc
    | none => time / 40
  duration - min (duration / 10) 50

/-! ## Concrete instances for witnesses and counterexamples -/

/-- A concrete Zobrist table with distinguishable entries, standing in for
the seeded-RNG table of `zorbrist.rs` (whose concrete values the embedding
treats as opaque). -/
def zorb_test : Zorbrist where
  pieces := fun i p c =>
    (i + 1) * 131 +
    (match p with
     | .Pawn => 1 | .Knight => 2 | .Bishop => 3
     | .Rook => 4 | .Queen => 5 | .King => 6) * 7919 +
    (match c with | .White => 0 | .Black => 1) * 104729
  side := 2 ^ 40 + 12345
  en_passant_file := fun f => 2 ^ 50 + f * 997

def START_FEN : String := "rnbqkbnr/pppppppp/8/8/8/8/PPPPPPPP/RNBQKBNR w KQkq - 0 1"

def fen_overflow : String := "k7/8/8/8/8/8/4P3/4K3 w - - 0 188"

/-- The pawn push e2e3 from `fen_overflow`. -/
def push_e2e3 : Play :=
  { from_sq := 12, to_sq := 20, capture := none, promote := none,
    en_passant := false, castle := false }

def fen_nine_columns : String := "1nbqkbnrr/pppppppp/8/8/8/8/PPPPPPPP/RNBQKBNR w KQkq - 0 1"

/-- The victim table used by `Play::mmv_lva`. -/
def victim_points : Piece → Nat
  | .Pawn => 10
  | .Knight => 25
  | .Bishop => 40
  | .Rook => 40
  | .Queen => 50
  | .King => 100

/-- The attacker table used by `Play::mmv_lva`. -/
def attacker_points : Piece → Nat
  | .Pawn => 1
  | .Knight => 2
  | .Bishop => 3
  | .Rook => 4
  | .Queen => 5
  | .King => 6

/-- White rook a5, white pawn d4, black queen e5: both white pieces attack
the queen. -/
def fen_mvv : String := "4k3/8/8/R3q3/3P4/8/8/4K3 w - - 0 1"

def pawn_takes_queen : Play :=
  { from_sq := 27, to_sq := 36, capture := some .Queen, promote := none,
    en_passant := false, castle := false }

def rook_takes_queen : Play :=
  { from_sq := 32, to_sq := 36, capture := some .Queen, promote := none,
    en_passant := false, castle := false }

/-- The XOR of one Zobrist key per occupied (piece, colour, square). -/
def scratch_piece_keys (z : Zorbrist) (b : Board) : Nat :=
  (List.range 64).foldl (fun acc i =>
    match get_piece_and_color_index b i with
    | some (p, c) => acc ^^^ z.get_piece_key i p c
    | none => acc) 0

/-- The Zobrist key recomputed from scratch, following the claim (and spec
section 3) word for word: piece keys, XOR the side key if Black is to move,
XOR the en-passant-file key if the en-passant square exists. -/
def spec_scratch_key (z : Zorbrist) (b : Board) : Nat :=
  let side_part := match b.active_color with
    | .Black => z.side
    | .White => 0
  let ep_part := match b.en_passant with
    | some c => z.en_passant_key c.as_index
    | none => 0
  scratch_piece_keys z b ^^^ side_part ^^^ ep_part

/-! ## Well-formedness of positions and pseudo-legal plays -/

/-- The bit set of a piece kind. -/
def piece_board (b : Board) : Piece → Nat
  | .Pawn => b.pawns
  | .Knight => b.knights
  | .Bishop => b.bishops
  | .Rook => b.rooks
  | .Queen => b.queens
  | .King => b.kings

/-- The occupancy set of a colour. -/
def color_mask_of (b : Board) : Color → Nat
  | .White => b.white
  | .Black => b.black

/-- The union of the six piece bit sets. -/
def union_boards (b : Board) : Nat :=
  b.pawns ||| b.knights ||| b.bishops ||| b.rooks ||| b.queens ||| b.kings

/-- En-passant coherence: the target square (present only for the side to
move's capture rank) is empty and the doubled pawn stands behind it. -/
def ep_ok (b : Board) : Bool :=
  match b.en_passant with
  | none => true
  | some c =>
    !(is_bit_set (b.white ||| b.black) c.as_index) &&
    (match b.active_color with
     | .White => decide (40 ≤ c.as_index) && decide (c.as_index ≤ 47) &&
         is_bit_set (b.pawns &&& b.black) (c.as_index - 8)
     | .Black => decide (16 ≤ c.as_index) && decide (c.as_index ≤ 23) &&
         is_bit_set (b.pawns &&& b.white) (c.as_index + 8))

/-- The structural invariants of a well-formed position (spec section 3):
bounded bitboards, piece sets pairwise disjoint and partitioned into the two
colour sets, both kings present, bounded material counters, a
`MAX_GAME_SIZE`-slot history whose slot at the current ply is free, castling
rights backed by a rook on the corresponding corner, and a coherent
en-passant square. -/
def OkBoard (b : Board) : Prop :=
  b.pawns < 2 ^ 64 ∧ b.knights < 2 ^ 64 ∧ b.bishops < 2 ^ 64 ∧ b.rooks < 2 ^ 64 ∧
  b.queens < 2 ^ 64 ∧ b.kings < 2 ^ 64 ∧ b.white < 2 ^ 64 ∧ b.black < 2 ^ 64 ∧
  b.white &&& b.black = 0 ∧
  (b.white ||| b.black) = union_boards b ∧
  b.pawns &&& b.knights = 0 ∧ b.pawns &&& b.bishops = 0 ∧ b.pawns &&& b.rooks = 0 ∧
  b.pawns &&& b.queens = 0 ∧ b.pawns &&& b.kings = 0 ∧
  b.knights &&& b.bishops = 0 ∧ b.knights &&& b.rooks = 0 ∧ b.knights &&& b.queens = 0 ∧
  b.knights &&& b.kings = 0 ∧
  b.bishops &&& b.rooks = 0 ∧ b.bishops &&& b.queens = 0 ∧ b.bishops &&& b.kings = 0 ∧
  b.rooks &&& b.queens = 0 ∧ b.rooks &&& b.kings = 0 ∧
  b.queens &&& b.kings = 0 ∧
  b.kings &&& b.white ≠ 0 ∧ b.kings &&& b.black ≠ 0 ∧
  b.white_value < 2 ^ 32 ∧ b.black_value < 2 ^ 32 ∧
  b.history.length = MAX_GAME_SIZE ∧
  b.history.getD b.ply none = none ∧
  (b.castle.white_king_side = true → is_bit_set (b.rooks &&& b.white) 7 = true) ∧
  (b.castle.white_queen_side = true → is_bit_set (b.rooks &&& b.white) 0 = true) ∧
  (b.castle.black_king_side = true → is_bit_set (b.rooks &&& b.black) 63 = true) ∧
  (b.castle.black_queen_side = true → is_bit_set (b.rooks &&& b.black) 56 = true) ∧
  ep_ok b = true

instance (b : Board) : Decidable (OkBoard b) := by
  unfold OkBoard
  infer_instance

/-- Basic facts of a pseudo-legal play: bounded distinct squares, the mover
owns an occupied from-square, a promotion moves a pawn. -/
def ok_play_basic (b : Board) (m : Play) : Prop :=
  m.from_sq < 64 ∧ m.to_sq < 64 ∧ m.from_sq ≠ m.to_sq ∧
  is_bit_set (color_mask_of b b.active_color) m.from_sq = true ∧
  (get_piece_index b m.from_sq).isSome = true ∧
  (m.promote.isSome = true → is_bit_set b.pawns m.from_sq = true)

instance (b : Board) (m : Play) : Decidable (ok_play_basic b m) := by
  unfold ok_play_basic
  infer_instance

/-- Capture facts: the recorded victim occupies the to-square with the enemy
colour; a non-capture targets an empty square. -/
def ok_play_capture (b : Board) (m : Play) : Prop :=
  (∀ c, m.capture = some c → m.en_passant = false →
    is_bit_set (piece_board b c) m.to_sq = true ∧
    is_bit_set (color_mask_of b b.active_color.not) m.to_sq = true) ∧
  (m.capture = none → is_bit_set (b.white ||| b.black) m.to_sq = false)

instance (b : Board) (m : Play) : Decidable (ok_play_capture b m) := by
  unfold ok_play_capture
  infer_instance

/-- En-passant facts: a pawn capture onto the empty en-passant square, with
the captured pawn one rank behind it. -/
def ok_play_ep (b : Board) (m : Play) : Prop :=
  m.en_passant = true →
  m.castle = false ∧ m.promote = none ∧ m.capture = some .Pawn ∧
  is_bit_set b.pawns m.from_sq = true ∧
  is_bit_set (b.white ||| b.black) m.to_sq = false ∧
  (b.active_color = .White →
    (m.to_sq = m.from_sq + 7 ∨ m.to_sq = m.from_sq + 9) ∧
    40 ≤ m.to_sq ∧ m.to_sq ≤ 47 ∧
    is_bit_set (b.pawns &&& b.black) (m.to_sq - 8) = true) ∧
  (b.active_color = .Black →
    (m.from_sq = m.to_sq + 7 ∨ m.from_sq = m.to_sq + 9) ∧
    16 ≤ m.to_sq ∧ m.to_sq ≤ 23 ∧
    is_bit_set (b.pawns &&& b.white) (m.to_sq + 8) = true)

instance (b : Board) (m : Play) : Decidable (ok_play_ep b m) := by
  unfold ok_play_ep
  infer_instance

/-- White castling shape: a king move to c1 or g1 with the rook on its
corner and the traversed squares empty. -/
def ok_castle_white (b : Board) (m : Play) : Prop :=
  (m.to_sq = 2 ∧ is_bit_set (b.rooks &&& b.white) 0 = true ∧
    is_bit_set (b.white ||| b.black) 1 = false ∧
    is_bit_set (b.white ||| b.black) 2 = false ∧
    is_bit_set (b.white ||| b.black) 3 = false ∧
    m.from_sq ≠ 0 ∧ m.from_sq ≠ 3) ∨
  (m.to_sq = 6 ∧ is_bit_set (b.rooks &&& b.white) 7 = true ∧
    is_bit_set (b.white ||| b.black) 5 = false ∧
    is_bit_set (b.white ||| b.black) 6 = false ∧
    m.from_sq ≠ 7 ∧ m.from_sq ≠ 5)

instance (b : Board) (m : Play) : Decidable (ok_castle_white b m) := by
  unfold ok_castle_white
  infer_instance

/-- Black castling shape: a king move to c8 or g8 with the rook on its
corner and the traversed squares empty. -/
def ok_castle_black (b : Board) (m : Play) : Prop :=
  (m.to_sq = 58 ∧ is_bit_set (b.rooks &&& b.black) 56 = true ∧
    is_bit_set (b.white ||| b.black) 57 = false ∧
    is_bit_set (b.white ||| b.black) 58 = false ∧
    is_bit_set (b.white ||| b.black) 59 = false ∧
    m.from_sq ≠ 56 ∧ m.from_sq ≠ 59) ∨
  (m.to_sq = 62 ∧ is_bit_set (b.rooks &&& b.black) 63 = true ∧
    is_bit_set (b.white ||| b.black) 61 = false ∧
    is_bit_set (b.white ||| b.black) 62 = false ∧
    m.from_sq ≠ 63 ∧ m.from_sq ≠ 61)

instance (b : Board) (m : Play) : Decidable (ok_castle_black b m) := by
  unfold ok_castle_black
  infer_instance

/-- Castling facts: a quiet king move with the colour's castling shape. -/
def ok_play_castle (b : Board) (m : Play) : Prop :=
  m.castle = true →
  m.en_passant = false ∧ m.promote = none ∧ m.capture = none ∧
  is_bit_set b.kings m.from_sq = true ∧
  (b.active_color = .White → ok_castle_white b m) ∧
  (b.active_color = .Black → ok_castle_black b m)

instance (b : Board) (m : Play) : Decidable (ok_play_castle b m) := by
  unfold ok_play_castle
  infer_instance

/-- The facts a pseudo-legal play (one produced by `generate_moves` on a
well-formed position) satisfies; exactly what the make/undo round trip
consumes. -/
def OkPlay (b : Board) (m : Play) : Prop :=
  ok_play_basic b m ∧ ok_play_capture b m ∧ ok_play_ep b m ∧ ok_play_castle b m

instance (b : Board) (m : Play) : Decidable (OkPlay b m) := by
  unfold OkPlay
  infer_instance

end Arche

namespace Arche

/-! # Helper lemmas on bits, wrapping arithmetic and lists -/

theorem one_shiftLeft_eq (i : Nat) : (1 <<< i : Nat) = 2 ^ i := by
  simp [Nat.shiftLeft_eq]

theorem testBit_one_shiftLeft (i k : Nat) :
    (1 <<< i : Nat).testBit k = decide (k = i) := by
  rw [one_shiftLeft_eq]
  by_cases h : i = k
  · subst h
    simp
  · rw [Nat.testBit_two_pow_of_ne h]
    simp [Ne.symm h]

theorem testBit_set_bit (b i k : Nat) :
    (set_bit b i).testBit k = (b.testBit k || decide (k = i)) := by
  simp only [set_bit, Nat.testBit_lor, testBit_one_shiftLeft]

theorem testBit_U64MASK (k : Nat) : U64MASK.testBit k = decide (k < 64) := by
  simpa [U64MASK] using Nat.testBit_two_pow_sub_one 64 k

theorem testBit_clear_bit (b i k : Nat) :
    (clear_bit b i).testBit k =
      (b.testBit k && (decide (k < 64) ^^ decide (k = i))) := by
  simp only [clear_bit, Nat.testBit_land, Nat.testBit_xor, testBit_U64MASK,
    testBit_one_shiftLeft]

theorem testBit_of_lt_64 (b : Nat) (hb : b < 2 ^ 64) (k : Nat) (hk : 64 ≤ k) :
    b.testBit k = false := by
  apply Nat.testBit_eq_false_of_lt
  exact lt_of_lt_of_le hb (Nat.pow_le_pow_right (by norm_num) hk)

theorem is_bit_set_eq_testBit (b i : Nat) : is_bit_set b i = b.testBit i := by
  rcases h : b.testBit i with _ | _
  · have : b &&& 1 <<< i = 0 := by
      apply Nat.eq_of_testBit_eq
      intro k
      simp only [Nat.testBit_land, testBit_one_shiftLeft, Nat.zero_testBit]
      by_cases hk : k = i
      · subst hk
        simp [h]
      · simp [hk]
    simp [is_bit_set, this]
  · have : (b &&& 1 <<< i).testBit i = true := by
      simp [Nat.testBit_land, testBit_one_shiftLeft, h]
    simp only [is_bit_set, bne_iff_ne, ne_eq]
    intro h0
    rw [h0] at this
    simp at this

theorem clear_set_cancel (b i : Nat) (hb : b < 2 ^ 64) (hi : i < 64)
    (h : b.testBit i = false) : clear_bit (set_bit b i) i = b := by
  apply Nat.eq_of_testBit_eq
  intro k
  simp only [testBit_clear_bit, testBit_set_bit]
  by_cases hk : k = i
  · subst hk
    simp [h, hi]
  · by_cases hk64 : k < 64
    · simp [hk, hk64]
    · simp [hk, hk64, testBit_of_lt_64 b hb k (le_of_not_lt hk64)]

theorem set_clear_cancel (b i : Nat) (hb : b < 2 ^ 64) (hi : i < 64)
    (h : b.testBit i = true) : set_bit (clear_bit b i) i = b := by
  apply Nat.eq_of_testBit_eq
  intro k
  simp only [testBit_clear_bit, testBit_set_bit]
  by_cases hk : k = i
  · subst hk
    simp [h]
  · by_cases hk64 : k < 64
    · simp [hk, hk64]
    · simp [hk, hk64, testBit_of_lt_64 b hb k (le_of_not_lt hk64)]

theorem wsub32_wadd32 (a v : Nat) (ha : a < 2 ^ 32) :
    wsub32 (wadd32 a v) v = a := by
  unfold wadd32 wsub32
  omega

theorem wadd32_wsub32 (a v : Nat) (ha : a < 2 ^ 32) :
    wadd32 (wsub32 a v) v = a := by
  unfold wadd32 wsub32
  omega

theorem list_set_none_eq {α : Type} (l : List (Option α)) (i : Nat)
    (h : l.getD i none = none) : l.set i none = l := by
  induction l generalizing i with
  | nil => rfl
  | cons a t ih =>
    cases i with
    | zero => simp_all [List.getD]
    | succ n =>
      simp only [List.set]
      rw [ih n (by simpa [List.getD] using h)]

theorem list_get?_set_self {α : Type} (l : List α) (i : Nat) (x : α)
    (h : i < l.length) : (l.set i x).get? i = some x := by
  rw [List.get?_eq_getElem?, List.getElem?_set_eq_of_lt x h]

/-! # Claim theorems -/

/-- Claim C8: for a remaining-time budget of `T` milliseconds and an optional
increment `I` (0 when absent), the search duration is
`B - min(B/10, 50)` where `B = T/40 + I`, with floor integer division. -/
theorem claim_c8 (t : Nat) (inc : Option Nat) :
    parse_go_duration t inc = (t / 40 + inc.getD 0) - min ((t / 40 + inc.getD 0) / 10) 50 := by
  cases inc <;> simp [parse_go_duration, Option.getD]

/-- Claim C9: `from_fen` sets `ply` to twice the full-move number (376 at
full-move 188), `make_move` writes its history record at index `ply` into a
fixed array of `MAX_GAME_SIZE = 375` slots, so a legal move from this valid
FEN indexes past the end (a panic, modelled as `none`) instead of
succeeding. -/
theorem claim_c9 :
    (from_fen zorb_test fen_overflow).map Board.ply = some (2 * 188) ∧
    MAX_GAME_SIZE = 375 ∧
    (from_fen zorb_test fen_overflow).map
      (fun b => decide (push_e2e3 ∈ generate_moves b)) = some true ∧
    (from_fen zorb_test fen_overflow).bind
      (fun b => make_move zorb_test b push_e2e3) = none := by
  refine ⟨by decide, rfl, by decide, by decide⟩

/-- Claim C10: a piece-placement rank with nine columns is not rejected; the
file coordinate advances modulo 8 (`File::add`), so the ninth piece of the
first rank (a black rook) wraps back to file a of rank 8: `from_fen` returns
`Ok` with rooks on both a8 (bit 56) and h8 (bit 63). -/
theorem claim_c10 :
    file_add 7 1 = 0 ∧
    (from_fen zorb_test fen_nine_columns).isSome = true ∧
    (from_fen zorb_test fen_nine_columns).map
      (fun b => (is_bit_set b.rooks 56, is_bit_set b.black 56,
        is_bit_set b.rooks 63)) = some (true, true, true) := by
  refine ⟨rfl, by decide, by decide⟩

/-- Counterexample to claim C6: the sort key is not victim value minus
attacker value.  For the same victim (a queen), the pawn capture scores
51 = 50 + 1 and the rook capture scores 54 = 50 + 4, so the capture by the
lower-valued attacker sorts lower, not higher; and 51 is not
`material_value(Queen) - material_value(Pawn) = 800` either. -/
theorem claim_c6_counterexample :
    (from_fen zorb_test fen_mvv).map (fun b =>
      (mmv_lva pawn_takes_queen b, mmv_lva rook_takes_queen b)) = some (51, 54) ∧
    ¬ (54 < 51) ∧
    Piece.Queen.material_value - Piece.Pawn.material_value = 800 := by
  refine ⟨by decide, by decide, rfl⟩

/-- Claim C6 as amended: the sort key of a capture is the victim table value
(P 10, N 25, B 40, R 40, Q 50, K 100) plus the attacker table value (P 1,
N 2, B 3, R 4, Q 5, K 6) — so among captures of the same victim,
higher-valued attackers score higher — and a non-capture (or a move whose
from-square is empty) scores 0. -/
theorem claim_c6_amended (b : Board) (m : Play) :
    (m.capture = none → mmv_lva m b = 0) ∧
    (∀ v, m.capture = some v → get_piece_index b m.from_sq = none → mmv_lva m b = 0) ∧
    (∀ v a, m.capture = some v → get_piece_index b m.from_sq = some a →
      mmv_lva m b = victim_points v + attacker_points a) := by
  refine ⟨fun h => by simp [mmv_lva, h], fun v hv ha => by simp [mmv_lva, hv, ha],
    fun v a hv ha => ?_⟩
  cases v <;> cases a <;> simp [mmv_lva, hv, ha, victim_points, attacker_points]

/-- Witness for `claim_c6_amended` at the concrete pawn-takes-queen input. -/
theorem claim_c6_amended_witness :
    mmv_lva pawn_takes_queen (Option.getD (from_fen zorb_test fen_mvv)
      (Board.mk 0 0 0 0 0 0 0 0 .White ⟨false, false, false, false⟩ none 0 0 0 0 0 0 [] 0)) =
      victim_points .Queen + attacker_points .Pawn :=
  (claim_c6_amended _ pawn_takes_queen).2.2 .Queen .Pawn rfl (by decide)

/-- Counterexample to claim C3: already at the state produced by `from_fen`
of the starting position (zero `make_move`/`undo_move` calls), the
incrementally maintained key differs from the key recomputed from scratch:
`from_fen` seeds the key with the constant 2340980257093 and XORs only piece
keys into it. -/
theorem claim_c3_counterexample :
    (from_fen zorb_test START_FEN).map
      (fun b => b.key == spec_scratch_key zorb_test b) = some false := by
  decide

/-- Claim C3 as amended: at the state produced by `from_fen` of the starting
position the incremental key equals the fixed seed constant 2340980257093
XOR the occupied-square piece keys — the side-to-move and en-passant keys
are never folded in by `from_fen` — so it differs from the scratch key of
the claim exactly by that nonzero constant. -/
theorem claim_c3_amended :
    (from_fen zorb_test START_FEN).map
      (fun b => b.key ^^^ spec_scratch_key zorb_test b) = some 2340980257093 ∧
    (2340980257093 : Nat) ≠ 0 := by
  exact ⟨by decide, by decide⟩

end Arche
